import Mathlib

/-!
Shallow embedding of `main.py` of the `config-api-tester` repository
(class `TestRunner` and its helpers), together with theorems settling the
frozen claims about its behaviour.

Conventions of the embedding:
* Python values (the YAML/JSON universe the program manipulates) are the
  inductive type `Val`.  Python dicts are insertion-ordered association
  lists `List (Val × Val)`; floats do not occur in any claim and are left
  out of the universe.
* Strings are represented as `List Char` (`Txt`) so that the placeholder
  scanner and `str.replace` can be reasoned about by structural induction.
* Raising an exception is modelled with `Except PyErr`; the distinct
  Python exception classes the program distinguishes (`KeyError`,
  `TypeError`, `RuntimeError`, `ComparisonException`, ...) are the
  constructors of `PyErr`.
* The outbound HTTP call inside `send_request` (the `requests.request`
  library call, external to the repository) is a `Transport` oracle
  parameter; everything around it follows the source.
-/

/-- Python strings, as character lists. -/
abbrev Txt := List Char

/-- Characters of a Lean string literal. -/
def txt (s : String) : Txt := s.data

/-- The character `\x7b` (opening curly brace). -/
def lbraceC : Char := Char.ofNat 123

/-- The character `\x7d` (closing curly brace). -/
def rbraceC : Char := Char.ofNat 125

/-- The character `\x27` (single quote), used by Python `repr` of strings. -/
def squoteC : Char := Char.ofNat 39

/-- The Python value universe manipulated by the program: the YAML/JSON
data loaded from the configuration, plus `vErrObj` for an exception
object stored as an ordinary value (line 30 of `main.py` returns a
`RuntimeError` instead of raising it). -/
inductive Val where
  | vNone : Val
  | vBool : Bool → Val
  | vInt : Int → Val
  | vStr : Txt → Val
  | vList : List Val → Val
  | vDict : List (Val × Val) → Val
  | vErrObj : Txt → Val

mutual

/-- Python `==` on values (no cross-type numeric coercions occur in the
program's comparisons, which are all keyed lookups and name checks). -/
def valBeq : Val → Val → Bool
  | .vNone, .vNone => true
  | .vBool a, .vBool b => a == b
  | .vInt a, .vInt b => a == b
  | .vStr a, .vStr b => a == b
  | .vList a, .vList b => valListBeq a b
  | .vDict a, .vDict b => valEntriesBeq a b
  | _, _ => false

/-- Elementwise `==` on Python lists. -/
def valListBeq : List Val → List Val → Bool
  | [], [] => true
  | a :: as, b :: bs => valBeq a b && valListBeq as bs
  | _, _ => false

/-- Entrywise `==` on Python dict association lists. -/
def valEntriesBeq : List (Val × Val) → List (Val × Val) → Bool
  | [], [] => true
  | (k1, v1) :: as, (k2, v2) :: bs => valBeq k1 k2 && valBeq v1 v2 && valEntriesBeq as bs
  | _, _ => false

end

/-- Python exceptions distinguished by the program.  `comparisonException`
is the `ComparisonException(RuntimeError)` subclass defined in `main.py`;
`transportError` stands for the `requests` library's network failures. -/
inductive PyErr where
  | keyError : Txt → PyErr
  | typeError : Txt → PyErr
  | indexError : Txt → PyErr
  | attributeError : Txt → PyErr
  | runtimeError : Txt → PyErr
  | comparisonException : Txt → PyErr
  | nameError : Txt → PyErr
  | transportError : Txt → PyErr
deriving DecidableEq, Repr

/-- Decimal rendering of an integer, as Python `str` produces it. -/
def intToTxt (n : Int) : Txt := (toString n).data

/-- Comma-space separated concatenation, used by Python `repr` of
containers. -/
def commaSep : List Txt → Txt
  | [] => []
  | [t] => t
  | t :: rest => t ++ txt ", " ++ commaSep rest

mutual

/-- Python `repr` of a value (approximated for strings: quotes are added
but escape sequences inside the string are not re-escaped; no claim
exercises strings needing escapes). -/
def pyRepr : Val → Txt
  | .vNone => txt "None"
  | .vBool true => txt "True"
  | .vBool false => txt "False"
  | .vInt n => intToTxt n
  | .vStr s => squoteC :: s ++ [squoteC]
  | .vList l => '[' :: commaSep (pyReprList l) ++ [']']
  | .vDict d => lbraceC :: commaSep (pyReprEntries d) ++ [rbraceC]
  | .vErrObj m => txt "RuntimeError(" ++ squoteC :: m ++ [squoteC] ++ txt ")"

/-- Python `repr` of the elements of a list. -/
def pyReprList : List Val → List Txt
  | [] => []
  | v :: rest => pyRepr v :: pyReprList rest

/-- Python `repr` of the entries of a dict (`key: value` pairs). -/
def pyReprEntries : List (Val × Val) → List Txt
  | [] => []
  | (k, v) :: rest => (pyRepr k ++ txt ": " ++ pyRepr v) :: pyReprEntries rest

end

/-- Python `str` of a value.  For strings it is the string itself, for an
exception object its message, for everything else it agrees with `repr`. -/
def pyStr : Val → Txt
  | .vStr s => s
  | .vErrObj m => m
  | v => pyRepr v

/-- Python dict lookup on an association list: first entry whose key is
equal (insertion order; Python dicts hold each key once). -/
def pyDictGet (d : List (Val × Val)) (k : Val) : Option Val :=
  match d with
  | [] => none
  | (k0, v0) :: rest => if valBeq k0 k then some v0 else pyDictGet rest k

/-- Python dict union `a | b`: keys of `a` in order (values overridden by
`b` where present), then keys of `b` not in `a`, in order. -/
def pyDictUnion (a b : List (Val × Val)) : List (Val × Val) :=
  a.map (fun p => (p.1, (pyDictGet b p.1).getD p.2))
    ++ b.filter (fun p => (pyDictGet a p.1).isNone)

/-- Python dict assignment `d[k] = v`: update in place if the key exists
(keeping its position), else append. -/
def pyDictSet (d : List (Val × Val)) (k v : Val) : List (Val × Val) :=
  if (pyDictGet d k).isSome then
    d.map (fun p => if valBeq p.1 k then (p.1, v) else p)
  else d ++ [(k, v)]

/-- Normalisation of a Python negative index against a length. -/
def pyIndex (n : Int) (len : Nat) : Option Nat :=
  if 0 ≤ n then (if n < len then some n.toNat else none)
  else (if 0 ≤ n + len then some (n + len).toNat else none)

/-- Python subscription `container[k]`: dict lookup (`KeyError` when
missing), list/string integer indexing (`IndexError` out of range),
`TypeError` otherwise. -/
def pyGetItem (container : Val) (k : Val) : Except PyErr Val :=
  match container, k with
  | .vDict d, key =>
    match pyDictGet d key with
    | some v => .ok v
    | none => .error (.keyError (pyStr key))
  | .vList l, .vInt n =>
    match pyIndex n l.length with
    | some i =>
      match l.get? i with
      | some v => .ok v
      | none => .error (.indexError (txt "list index out of range"))
    | none => .error (.indexError (txt "list index out of range"))
  | .vStr s, .vInt n =>
    match pyIndex n s.length with
    | some i =>
      match s.get? i with
      | some c => .ok (.vStr [c])
      | none => .error (.indexError (txt "string index out of range"))
    | none => .error (.indexError (txt "string index out of range"))
  | _, _ => .error (.typeError (txt "object is not subscriptable"))

example : pyStr (.vInt 200) = txt "200" := by decide

example : pyStr (.vStr (txt "200")) = pyStr (.vInt 200) := by decide

example : pyDictUnion [(.vStr (txt "a"), .vInt 1)] [(.vStr (txt "a"), .vInt 2), (.vStr (txt "b"), .vInt 3)]
    = [(.vStr (txt "a"), .vInt 2), (.vStr (txt "b"), .vInt 3)] := rfl

/-! ## Variable Substitutor (`string_vars_replace`, `vars_replace`,
`dict_get_replaced`, `main.py` lines 32-58 and 140-144) -/

/-- The run-scoped variable environment `self.variables`: a Python dict
from names to values. -/
abbrev Env := List (Val × Val)

/-- Scanner for the regex `\x7b[^\x7d]+\x7d` (line 35): outside a
potential match (`none`), an opening brace starts one; inside
(`some racc`, the characters seen since the opening brace in reverse), a
closing brace completes the match when at least one character was
collected (any other character, opening braces included, is collected).
A closing brace immediately after the opening one matches nothing, as
the character class requires one or more characters. -/
def findVarsAux : Txt → Option Txt → List Txt
  | [], _ => []
  | c :: rest, none =>
    if c = lbraceC then findVarsAux rest (some []) else findVarsAux rest none
  | c :: rest, some racc =>
    if c = rbraceC then
      match racc with
      | [] => findVarsAux rest none
      | _ :: _ => (lbraceC :: (racc.reverse ++ [rbraceC])) :: findVarsAux rest none
    else findVarsAux rest (some (c :: racc))

/-- The matches of `re.findall` with pattern `\x7b[^\x7d]+\x7d` (line 35),
leftmost and non-overlapping, braces included in each match. -/
def findVars (s : Txt) : List Txt := findVarsAux s none

/-- Python `str.strip()`: drop leading and trailing whitespace. -/
def pyStrip (s : Txt) : Txt :=
  ((s.dropWhile Char.isWhitespace).reverse.dropWhile Char.isWhitespace).reverse

/-- The variable name of a placeholder match: the text between the braces
(`var[1:-1]`, line 38), stripped (line 40). -/
def var_key (var : Txt) : Txt := pyStrip ((var.drop 1).dropLast)

/-- Worker for Python `str.replace`: at each position, if the (nonempty)
pattern is a prefix, emit the replacement and skip the pattern, else emit
the character and move on.  `fuel` bounds the number of steps; each step
consumes at least one character, so `s.length` of fuel is always enough. -/
def replaceAllGo (pat repl : Txt) : Nat → Txt → Txt
  | _, [] => []
  | 0, s => s
  | fuel + 1, c :: rest =>
    if pat.isPrefixOf (c :: rest) ∧ pat ≠ [] then
      repl ++ replaceAllGo pat repl fuel ((c :: rest).drop pat.length)
    else c :: replaceAllGo pat repl fuel rest

/-- Python `str.replace(pat, repl)` (line 45): replace every
non-overlapping occurrence, left to right (`pat` is never empty at the
single call site, where it is a brace-delimited placeholder). -/
def replaceAll (s pat repl : Txt) : Txt := replaceAllGo pat repl s.length s

/-- The per-placeholder loop of `string_vars_replace` (lines 36-45): for
each match, look the stripped key up in `self.variables` (line 42 reads
`self.variables`, not the `variables` parameter), raising `KeyError` when
it is absent, and replace every occurrence of the match in the current
string with the value (which must be a string, or `str.replace` raises
`TypeError`). -/
def svr_go (selfVars : Env) : List Txt → Txt → Except PyErr Txt
  | [], s => .ok s
  | var :: rest, s =>
    match pyDictGet selfVars (.vStr (var_key var)) with
    | none => .error (.keyError (txt "variable \"" ++ var_key var ++ txt "\" not defined"))
    | some (.vStr value) => svr_go selfVars rest (replaceAll s var value)
    | some _ => .error (.typeError (txt "replace() argument 2 must be str"))

/-- Embedding of `TestRunner.string_vars_replace` (lines 32-46).  The `variablesArg`
parameter mirrors the source's `variables` keyword argument: it is
defaulted to `self.variables` when `None` (lines 33-34) but the lookup on
line 42 reads `self.variables` directly, so the parameter is never
consulted. -/
def string_vars_replace (selfVars : Env) (variablesArg : Option Env) (s : Txt) :
    Except PyErr Txt :=
  let _vars := variablesArg.getD selfVars
  svr_go selfVars (findVars s) s

mutual

/-- Embedding of `TestRunner.vars_replace` (lines 48-58).  The source's `variables`
parameter is omitted here because its body never reads it and all three
recursive/inner calls (lines 52, 54, 56) drop it; lookups always consult
`self.variables` (`selfVars`).  Dicts are rebuilt key by key in order
(`subject.copy()` then per-key assignment), lists elementwise, scalars
(strings, ints, bools) are stringified and substituted, and any other
value is returned unchanged. -/
def vars_replace (selfVars : Env) : Val → Except PyErr Val
  | .vDict d =>
    match vars_replace_entries selfVars d with
    | .ok d2 => .ok (.vDict d2)
    | .error e => .error e
  | .vList l =>
    match vars_replace_list selfVars l with
    | .ok l2 => .ok (.vList l2)
    | .error e => .error e
  | .vStr s =>
    match string_vars_replace selfVars none (pyStr (.vStr s)) with
    | .ok s2 => .ok (.vStr s2)
    | .error e => .error e
  | .vInt n =>
    match string_vars_replace selfVars none (pyStr (.vInt n)) with
    | .ok s2 => .ok (.vStr s2)
    | .error e => .error e
  | .vBool b =>
    match string_vars_replace selfVars none (pyStr (.vBool b)) with
    | .ok s2 => .ok (.vStr s2)
    | .error e => .error e
  | .vNone => .ok .vNone
  | .vErrObj m => .ok (.vErrObj m)

/-- The dict traversal of `vars_replace`: values substituted in insertion
order, first failure raising. -/
def vars_replace_entries (selfVars : Env) :
    List (Val × Val) → Except PyErr (List (Val × Val))
  | [] => .ok []
  | (k, v) :: rest =>
    match vars_replace selfVars v with
    | .error e => .error e
    | .ok v2 =>
      match vars_replace_entries selfVars rest with
      | .error e => .error e
      | .ok rest2 => .ok ((k, v2) :: rest2)

/-- The list traversal of `vars_replace` (`list(map(self.vars_replace, subject))`). -/
def vars_replace_list (selfVars : Env) : List Val → Except PyErr (List Val)
  | [] => .ok []
  | v :: rest =>
    match vars_replace selfVars v with
    | .error e => .error e
    | .ok v2 =>
      match vars_replace_list selfVars rest with
      | .error e => .error e
      | .ok rest2 => .ok (v2 :: rest2)

end

/-- Embedding of `TestRunner.dict_get_replaced` (lines 140-144): fetch `subject[key]`
with `.get` (an `AttributeError` if `subject` is not a dict, e.g. the
`RuntimeError` object returned by a failed lookup), return the default
when absent or `None`, and otherwise substitute the value.  The merged
environment `self.variables | additional_variables` is computed and
passed to `vars_replace`, which never reads it (see `vars_replace`), so
`additional` never influences the result. -/
def dict_get_replaced (selfVars : Env) (subject : Val) (key : Txt)
    (additional : Env) (defaultV : Option Val) : Except PyErr (Option Val) :=
  match subject with
  | .vDict d =>
    match pyDictGet d (.vStr key) with
    | none => .ok defaultV
    | some .vNone => .ok defaultV
    | some result =>
      let _merged := pyDictUnion selfVars additional
      match vars_replace selfVars result with
      | .ok v => .ok (some v)
      | .error e => .error e
  | _ => .error (.attributeError (txt "object has no attribute get"))

example :
    findVars (txt "hello " ++ lbraceC :: (txt "name" ++ [rbraceC]))
      = [lbraceC :: (txt "name" ++ [rbraceC])] := rfl

example :
    string_vars_replace [(.vStr (txt "name"), .vStr (txt "world"))] none
        (txt "hello " ++ lbraceC :: (txt "name" ++ [rbraceC]))
      = .ok (txt "hello world") := rfl

example :
    string_vars_replace [] none (txt "hello " ++ lbraceC :: (txt "name" ++ [rbraceC]))
      = .error (.keyError (txt "variable \"name\" not defined")) := rfl

example :
    vars_replace [(.vStr (txt "v"), .vStr (txt "1"))]
        (.vDict [(.vStr (txt "x"), .vStr (lbraceC :: (txt "v" ++ [rbraceC])))])
      = .ok (.vDict [(.vStr (txt "x"), .vStr (txt "1"))]) := rfl

/-! ## Template Resolver (`find_item`, `main.py` lines 17-30) -/

/-- What `find_item` produces when it does not raise: either the matched
item, or — when no item matches — the `RuntimeError` object that line 30
returns as an ordinary value instead of raising. -/
inductive FindRet where
  | found : List (Val × Val) → FindRet
  | notFound : Txt → FindRet

/-- Embedding of `TestRunner.find_item` (lines 17-30).  Scans `haystack` in order for
the first dict whose `name` equals `key`.  A matching item that carries an
`inherit` key makes line 23 call `self.find_item(match[...])` with a
single argument, a `TypeError` (missing positional argument `key`) that
the `except KeyError` on line 26 does not catch; a matching item without
`inherit` is returned unchanged (the `KeyError` from `match[...]` is
caught).  When nothing matches, the `RuntimeError` is returned as a
value, not raised. -/
def find_item (haystack : List Val) (key : Txt) : Except PyErr FindRet :=
  match haystack with
  | [] => .ok (.notFound (txt "no item \"" ++ key ++ txt "\" found"))
  | item :: rest =>
    match item with
    | .vDict d =>
      match pyDictGet d (.vStr (txt "name")) with
      | none => .error (.keyError (txt "name"))
      | some v =>
        if valBeq v (.vStr key) then
          match pyDictGet d (.vStr (txt "inherit")) with
          | some _ =>
            .error (.typeError
              (txt "find_item() missing 1 required positional argument: key"))
          | none => .ok (.found d)
        else find_item rest key
    | _ => .error (.typeError (txt "object is not subscriptable"))

/-! ## Commands (`ensure_list`, `run_set`, `run_commands`,
`main.py` lines 94-97 and 123-138) -/

/-- Embedding of `TestRunner.ensure_list` (lines 94-97). -/
def ensure_list : Val → List Val
  | .vList l => l
  | v => [v]

/-- The run-scoped mutable state of a `TestRunner`: the field `vars`
embeds `self.variables` (`variables` is a reserved word in Lean). -/
structure RunSt where
  vars : Env

/-- The loop of `TestRunner.run_set` (lines 123-126): each command's
`key` and `value` are subscripted (a missing key raises `KeyError`, a
non-dict command `TypeError`) and assigned into `self.variables`;
mutations made before a failing command persist. -/
def run_set_go (st : RunSt) : List Val → RunSt × Option PyErr
  | [] => (st, none)
  | cmd :: rest =>
    match pyGetItem cmd (.vStr (txt "key")) with
    | .error e => (st, some e)
    | .ok kv =>
      match pyGetItem cmd (.vStr (txt "value")) with
      | .error e => (st, some e)
      | .ok vv => run_set_go ⟨pyDictSet st.vars kv vv⟩ rest

/-- Embedding of `TestRunner.run_set` (lines 123-126). -/
def run_set (st : RunSt) (v : Val) : RunSt × Option PyErr :=
  run_set_go st (ensure_list v)

/-- Embedding of `TestRunner.run_commands` (lines 129-138): `None` is a no-op; for the
single recognized command key `set`, `commands[...]` is subscripted inside
a `try`/`except KeyError`, so an absent `set` key is ignored and a
`KeyError` raised inside `run_set` is swallowed too (any other exception,
e.g. the `TypeError` from subscripting a non-dict, propagates). -/
def run_commands (st : RunSt) (commands : Option Val) : RunSt × Option PyErr :=
  match commands with
  | none => (st, none)
  | some c =>
    match pyGetItem c (.vStr (txt "set")) with
    | .error (.keyError _) => (st, none)
    | .error e => (st, some e)
    | .ok v =>
      match run_set st v with
      | (st2, some (.keyError _)) => (st2, none)
      | r => r

/-! ## Response Comparator (`compare_recursive`, `main.py` lines 189-199) -/

mutual

/-- Embedding of `TestRunner.compare_recursive` (lines 189-199).  A dict `expected`
is traversed entry by entry; anything else is compared to `actual` by
string-form equality, an inequality raising `ComparisonException`. -/
def compare_recursive (expected actual : Val) (path : Txt) : Except PyErr Unit :=
  match expected with
  | .vDict e => compare_entries e actual path
  | _ =>
    if pyStr expected = pyStr actual then .ok ()
    else
      .error (.comparisonException
        (txt "Unfulfiled comparison at " ++ path ++ txt " (expected: "
          ++ pyStr expected ++ txt ", actual: " ++ pyStr actual ++ txt ")"))

/-- The key loop of `compare_recursive` (lines 191-195): for each key of
`expected` in order, subscript `actual` and recurse under the extended
path `path.key`, all inside a `try` whose `except KeyError` (the key
missing from a dict `actual`) reports the path as not existent; other
exceptions (e.g. `TypeError` from subscripting a non-dict `actual`, or a
`ComparisonException` from the recursion) propagate, stopping at the
first failure. -/
def compare_entries (e : List (Val × Val)) (actual : Val) (path : Txt) :
    Except PyErr Unit :=
  match e with
  | [] => .ok ()
  | (k, ev) :: rest =>
    match
      (match pyGetItem actual k with
       | .error er => .error er
       | .ok av => compare_recursive ev av (path ++ '.' :: pyStr k)
       : Except PyErr Unit) with
    | .error (.keyError _) =>
      .error (.comparisonException
        (txt "Value " ++ path ++ '.' :: pyStr k ++ txt " not existant"))
    | .error er => .error er
    | .ok _ => compare_entries rest actual path

end

/-! ## Request Executor (`send_request`, `main.py` lines 66-92) -/

/-- The raw outcome of the external `requests.request` library call:
status code, body text, and the body parsed as JSON when parsing
succeeds (`response.json()` raising is modelled as `none`). -/
structure RawResp where
  status : Int
  text : Txt
  jsonBody : Option Val

/-- The network transport (the `requests` library, external to the
repository): method, url, optional payload, and the header dict, to a
raw response or a raised exception (connection errors and the like). -/
abbrev Transport := Val → Val → Option Val → List (Val × Val) → Except PyErr RawResp

/-- The header conversion of lines 70-72: each element of the `headers`
sequence is subscripted at `key` and `value` (`KeyError`/`TypeError`
propagating), in order. -/
def header_pairs_go : List Val → Except PyErr (List (Val × Val))
  | [] => .ok []
  | h :: rest =>
    match pyGetItem h (.vStr (txt "key")) with
    | .error e => .error e
    | .ok kv =>
      match pyGetItem h (.vStr (txt "value")) with
      | .error e => .error e
      | .ok vv =>
        match header_pairs_go rest with
        | .error e => .error e
        | .ok rest2 => .ok ((kv, vv) :: rest2)

/-- Lines 70-72 as a whole: `map` over the header sequence (a non-list
is not iterable as pairs, a `TypeError`). -/
def header_pairs : Val → Except PyErr (List (Val × Val))
  | .vList hs => header_pairs_go hs
  | _ => .error (.typeError (txt "headers are not iterable as key/value pairs"))

/-- Python `dict(pairs)`: sequential insertion, later entries for the
same key overriding earlier ones (last-one-wins). -/
def valDictOfPairs (pairs : List (Val × Val)) : List (Val × Val) :=
  pairs.foldl (fun d p => pyDictSet d p.1 p.2) []

/-- Embedding of `TestRunner.send_request` (lines 66-92) around the transport oracle:
`method` defaults to `GET`, `url` is subscripted (`KeyError` when
missing), `payload` is optional, headers are converted to a dict, and
the normalized Response Record is built with `json` defaulting to an
empty dict when body parsing failed.  A non-dict request (e.g. a string)
has no `.get`, an `AttributeError`. -/
def send_request (tp : Transport) (request : Val) : Except PyErr (List (Val × Val)) :=
  match request with
  | .vDict d =>
    let method := (pyDictGet d (.vStr (txt "method"))).getD (.vStr (txt "GET"))
    match pyDictGet d (.vStr (txt "url")) with
    | none => .error (.keyError (txt "url"))
    | some url =>
      let payload := pyDictGet d (.vStr (txt "payload"))
      let headersV := (pyDictGet d (.vStr (txt "headers"))).getD (.vList [])
      match header_pairs headersV with
      | .error e => .error e
      | .ok pairs =>
        match tp method url payload (valDictOfPairs pairs) with
        | .error e => .error e
        | .ok resp =>
          .ok [(.vStr (txt "http_code"), .vInt resp.status),
               (.vStr (txt "text"), .vStr resp.text),
               (.vStr (txt "json"), resp.jsonBody.getD (.vDict []))]
  | _ => .error (.attributeError (txt "object has no attribute get"))

/-! ## Test Orchestrator (`run_test`, `run_all_tests`,
`main.py` lines 146-187) -/

/-- The configuration document: the two collections read by
`TestRunner.__init__` (lines 12-15). -/
structure Config where
  requests : List Val
  tests : List Val

/-- One line printed by the runner: the `running test ...` progress line
(line 150), a green `[SUCCESS] ...` label (`print_label_ok`), or a red
`[FAIL] ...` label (`print_label_fail`). -/
inductive OutLine where
  | running : Txt → OutLine
  | labelOk : Txt → OutLine
  | labelFail : Txt → OutLine
deriving DecidableEq, Repr

/-- The outcome of one `run_test` call: the lines it printed, the state
it left `self.variables` in, and the exception it raised, if any. -/
structure TRes where
  out : List OutLine
  st : RunSt
  err : Option PyErr

/-- Line 157's condition `type(request) == 'str'`, which compares the
type object of `request` with the string literal `str` in quotes: it is
false for every value, so a string request is never resolved by name and
falls through to the `else` branch. -/
def type_is_str_literal (_ : Val) : Bool := false

/-- The request-shape dispatch of `run_test` (lines 157-163): the dead
name-resolution branch guarded by `type_is_str_literal`, the inline-dict
branch used directly, and `RuntimeError` (`unknown request type`) for
every other shape — including, because of the dead guard, name strings. -/
def build_request_step (cfg : Config) (request : Val) : Except PyErr Val :=
  if type_is_str_literal request then
    match request with
    | .vStr s =>
      match find_item cfg.requests s with
      | .error e => .error e
      | .ok (.found d) => .ok (.vDict d)
      | .ok (.notFound m) => .ok (.vErrObj m)
    | _ => .ok request
  else
    match request with
    | .vDict _ => .ok request
    | _ => .error (.runtimeError (txt "unknown request type"))

/-- Line 169: `expect = dict(http_code = 200) | expect` — the default is
the left operand of the dict union, so an explicit `http_code` in
`expect` (the right operand) always wins; a non-dict substituted expect
has no `|` with a dict, a `TypeError`. -/
def expect_with_default (v : Val) : Except PyErr (List (Val × Val)) :=
  match v with
  | .vDict e => .ok (pyDictUnion [(.vStr (txt "http_code"), .vInt 200)] e)
  | _ => .error (.typeError (txt "unsupported operand types for |"))

/-- Python `str` of an exception, as an f-string interpolates it:
`KeyError` renders the `repr` of its argument (quotes included), the
other classes render their message. -/
def errMsg : PyErr → Txt
  | .keyError m => squoteC :: m ++ [squoteC]
  | .typeError m => m
  | .indexError m => m
  | .attributeError m => m
  | .runtimeError m => m
  | .comparisonException m => m
  | .nameError m => m
  | .transportError m => m

/-- The per-test handler of `run_test` (lines 171-176): a passing
comparison prints the success label; a `ComparisonException` is caught
locally, printing the mismatch and the failure label; any other
exception escapes the handler. -/
def reportCompare (name : Txt) (r : Except PyErr Unit) : List OutLine × Option PyErr :=
  match r with
  | .ok _ => ([.labelOk (txt "Test " ++ name)], none)
  | .error (.comparisonException m) =>
    ([.labelFail m, .labelFail (txt "Test " ++ name)], none)
  | .error e => ([], some e)

/-- Embedding of `TestRunner.run_test` (lines 146-178), sequencing
resolve → before → request → send → expect/compare → after, with each
uncaught exception aborting the test at the point it is raised,
preserving the output and state mutations made so far. -/
def run_test (cfg : Config) (tp : Transport) (st : RunSt) (test : Val)
    (name : Txt) : TRes :=
  match
    (match test with
     | .vStr s =>
       match find_item cfg.tests s with
       | .error e => .error e
       | .ok (.found d) => .ok (.vDict d)
       | .ok (.notFound m) => .ok (.vErrObj m)
     | other => .ok other
     : Except PyErr Val) with
  | .error e => ⟨[], st, some e⟩
  | .ok testv =>
    let out0 : List OutLine := [.running name]
    match dict_get_replaced st.vars testv (txt "before") [] none with
    | .error e => ⟨out0, st, some e⟩
    | .ok beforeCmds =>
      match run_commands st beforeCmds with
      | (st1, some e) => ⟨out0, st1, some e⟩
      | (st1, none) =>
        match dict_get_replaced st1.vars testv (txt "request") [] none with
        | .error e => ⟨out0, st1, some e⟩
        | .ok none => ⟨out0, st1, none⟩
        | .ok (some request) =>
          match build_request_step cfg request with
          | .error e => ⟨out0, st1, some e⟩
          | .ok requestv =>
            match send_request tp requestv with
            | .error e => ⟨out0, st1, some e⟩
            | .ok response =>
              match dict_get_replaced st1.vars testv (txt "expect") response
                  (some (.vDict [])) with
              | .error e => ⟨out0, st1, some e⟩
              | .ok expectOpt =>
                match expect_with_default (expectOpt.getD (.vDict [])) with
                | .error e => ⟨out0, st1, some e⟩
                | .ok expectD =>
                  match reportCompare name
                      (compare_recursive (.vDict expectD) (.vDict response)
                        (txt "expect")) with
                  | (outC, some e) => ⟨out0 ++ outC, st1, some e⟩
                  | (outC, none) =>
                    match dict_get_replaced st1.vars testv (txt "after") response
                        none with
                    | .error e => ⟨out0 ++ outC, st1, some e⟩
                    | .ok afterCmds =>
                      match run_commands st1 afterCmds with
                      | (st2, some e) => ⟨out0 ++ outC, st2, some e⟩
                      | (st2, none) => ⟨out0 ++ outC, st2, none⟩

/-- The display name of test number `i` (0-based here; the source prints
`Test #<1-based>`, line 184). -/
def default_test_name (i : Nat) : Txt := txt "Test #" ++ (toString (i + 1)).data

/-- Line 184: the test's `name` field, substituted, defaulting to the
positional name, stringified for interpolation. -/
def name_step (st : RunSt) (test : Val) (i : Nat) : Except PyErr Txt :=
  match dict_get_replaced st.vars test (txt "name") []
      (some (.vStr (default_test_name i))) with
  | .error e => .error e
  | .ok o => .ok (pyStr (o.getD (.vStr (default_test_name i))))

/-- The loop of `run_all_tests` (lines 182-185), threading the mutable
environment and the local variable `name` (`lastName`, used by the
suite-level handler when an exception is raised before the current
test's name is computed).  The third component records an uncaught
exception together with the value `name` held when it was raised
(`none` when `name` was never assigned). -/
def run_tests_from (cfg : Config) (tp : Transport) :
    List Val → Nat → RunSt → Option Txt →
      List OutLine × RunSt × Option (Option Txt × PyErr)
  | [], _, st, _ => ([], st, none)
  | t :: rest, i, st, lastName =>
    match name_step st t i with
    | .error e => ([], st, some (lastName, e))
    | .ok name =>
      match run_test cfg tp st t name with
      | r =>
        match r.err with
        | some e => (r.out, r.st, some (some name, e))
        | none =>
          match run_tests_from cfg tp rest (i + 1) r.st (some name) with
          | (out2, st2, res) => (r.out ++ out2, st2, res)

/-- The single diagnostic printed by the suite-level handler (line 187). -/
def suite_diag (name : Txt) (e : PyErr) : OutLine :=
  .labelFail (txt "Error running test \"" ++ name ++ txt "\": " ++ errMsg e)

/-- Embedding of `TestRunner.run_all_tests` (lines 180-187): the whole-suite loop in a
single `try`; an exception is caught once, printing one diagnostic that
interpolates the local `name` — unless the exception was raised before
`name` was ever assigned (first test), in which case the handler itself
raises `NameError`. -/
def run_all_tests (cfg : Config) (tp : Transport) (st : RunSt) :
    List OutLine × RunSt × Option PyErr :=
  match run_tests_from cfg tp cfg.tests 0 st none with
  | (out, st2, none) => (out, st2, none)
  | (out, st2, some (some n, e)) => (out ++ [suite_diag n e], st2, none)
  | (out, st2, some (none, _)) =>
    (out, st2, some (.nameError (txt "name \x27name\x27 is not defined")))


/-! ## Claims -/

/-- C1 scenario: the collection in which `P` resolves to fields
`a=1, b=2` and `C` declares `inherit: P` with own fields `b=3, c=4`. -/
def c1_parent : Val :=
  .vDict [(.vStr (txt "name"), .vStr (txt "P")),
          (.vStr (txt "a"), .vInt 1), (.vStr (txt "b"), .vInt 2)]

/-- The inheriting item of the C1 scenario. -/
def c1_child : Val :=
  .vDict [(.vStr (txt "name"), .vStr (txt "C")),
          (.vStr (txt "inherit"), .vStr (txt "P")),
          (.vStr (txt "b"), .vInt 3), (.vStr (txt "c"), .vInt 4)]

/-- C1: the claim says resolving `C` yields the merged fields
`a=1, b=3, c=4`.  In the code, any matched item that carries `inherit`
makes line 23 call `find_item` without its `key` argument, a `TypeError`
that the `except KeyError` does not catch: resolution raises instead of
merging. -/
theorem c1_inherit_raises_type_error :
    find_item [c1_parent, c1_child] (txt "C")
      = .error (.typeError
          (txt "find_item() missing 1 required positional argument: key")) := rfl

/-- C2 scenario: a requests collection that does contain an item named
`myreq`. -/
def c2_cfg : Config :=
  ⟨[.vDict [(.vStr (txt "name"), .vStr (txt "myreq")),
            (.vStr (txt "url"), .vStr (txt "u"))]], []⟩

/-- C2: the claim says a string `request` is resolved as a name against
the requests collection.  Because line 157 compares `type(request)` with
the string literal `str` in quotes (false for every value), a name string
falls through to the `else` branch and raises
`RuntimeError: unknown request type`, even when the named request exists;
an inline dict is used directly, and other shapes raise the same error. -/
theorem c2_string_request_is_fatal :
    build_request_step c2_cfg (.vStr (txt "myreq"))
        = .error (.runtimeError (txt "unknown request type"))
      ∧ build_request_step c2_cfg (.vDict [(.vStr (txt "url"), .vStr (txt "u"))])
        = .ok (.vDict [(.vStr (txt "url"), .vStr (txt "u"))])
      ∧ build_request_step c2_cfg (.vInt 3)
        = .error (.runtimeError (txt "unknown request type")) :=
  ⟨rfl, rfl, rfl⟩

/-- C3 scenario: a test whose `expect` block references the response
field `text` through a placeholder. -/
def c3_test : Val :=
  .vDict [(.vStr (txt "expect"),
           .vDict [(.vStr (txt "text"),
                    .vStr (lbraceC :: (txt "text" ++ [rbraceC])))])]

/-- The Response Record supplied as supplemental values in the C3
scenario. -/
def c3_response : List (Val × Val) :=
  [(.vStr (txt "http_code"), .vInt 200),
   (.vStr (txt "text"), .vStr (txt "ok")),
   (.vStr (txt "json"), .vDict [])]

/-- C3: the claim says substituting the `expect` block overlays the
Response Record on the persistent Environment, so `\x7btext\x7d` resolves
to the response's `text`.  The code computes the overlay
(`self.variables | additional_variables`) but passes it to a parameter
`vars_replace` never reads; every lookup consults `self.variables` alone,
so with an empty persistent Environment the placeholder raises
`KeyError` instead of resolving to `ok`. -/
theorem c3_response_overlay_is_dropped :
    dict_get_replaced [] c3_test (txt "expect") c3_response (some (.vDict []))
      = .error (.keyError (txt "variable \"text\" not defined")) := rfl

/-- C4: the claim says a failed lookup fails with a Not Found error that
propagates as an error.  Line 30 instead returns the `RuntimeError`
object as an ordinary value (`Except.ok`), both on an empty collection
and past non-matching items. -/
theorem c4_not_found_is_returned_not_raised :
    find_item [] (txt "missing")
        = .ok (.notFound (txt "no item \"missing\" found"))
      ∧ find_item [.vDict [(.vStr (txt "name"), .vStr (txt "a"))]] (txt "missing")
        = .ok (.notFound (txt "no item \"missing\" found")) :=
  ⟨rfl, rfl⟩

/-- C7: the `http_code: 200` default is injected by the dict union on
line 169 only when the substituted `expect` lacks the key, and an
explicit `http_code` (the right operand of `|`) is never overridden. -/
theorem c7_http_code_default (e : List (Val × Val)) :
    (pyDictGet e (.vStr (txt "http_code")) = none →
      ∃ e2, expect_with_default (.vDict e) = .ok e2
        ∧ pyDictGet e2 (.vStr (txt "http_code")) = some (.vInt 200))
    ∧ (∀ v, pyDictGet e (.vStr (txt "http_code")) = some v →
      ∃ e2, expect_with_default (.vDict e) = .ok e2
        ∧ pyDictGet e2 (.vStr (txt "http_code")) = some v) := by
  constructor
  · intro h
    refine ⟨_, rfl, ?_⟩
    show pyDictGet (pyDictUnion _ _) _ = _
    simp only [pyDictUnion, List.map, pyDictGet, h]
    rfl
  · intro v h
    refine ⟨_, rfl, ?_⟩
    show pyDictGet (pyDictUnion _ _) _ = _
    simp only [pyDictUnion, List.map, pyDictGet, h]
    rfl

/-- Witness for C7 at concrete expects: one without `http_code` (the
default appears) and one with an explicit `http_code: 404` (kept). -/
theorem c7_http_code_default_witness :
    (∃ e2, expect_with_default (.vDict [(.vStr (txt "text"), .vStr (txt "ok"))])
        = .ok e2 ∧ pyDictGet e2 (.vStr (txt "http_code")) = some (.vInt 200))
    ∧ (∃ e2, expect_with_default (.vDict [(.vStr (txt "http_code"), .vInt 404)])
        = .ok e2 ∧ pyDictGet e2 (.vStr (txt "http_code")) = some (.vInt 404)) :=
  ⟨(c7_http_code_default _).1 rfl, (c7_http_code_default _).2 (.vInt 404) rfl⟩

/-- Specification-side fold of the per-placeholder replacements: what the
loop of `string_vars_replace` computes when every key resolves to a
string. -/
def substAll (sv : Env) : List Txt → Txt → Txt
  | [], s => s
  | var :: rest, s =>
    match pyDictGet sv (.vStr (var_key var)) with
    | some (.vStr value) => substAll sv rest (replaceAll s var value)
    | _ => substAll sv rest s

/-- The loop succeeds, producing the folded replacements, when every
placeholder's stripped key is bound to a string. -/
theorem svr_go_ok (sv : Env) :
    ∀ (vars : List Txt) (s : Txt),
      (∀ var ∈ vars, ∃ v, pyDictGet sv (.vStr (var_key var)) = some (.vStr v)) →
      svr_go sv vars s = .ok (substAll sv vars s) := by
  intro vars
  induction vars with
  | nil => intro s _; rfl
  | cons var rest ih =>
    intro s hall
    obtain ⟨v, hv⟩ := hall var (List.mem_cons_self var rest)
    simp only [svr_go, substAll, hv]
    exact ih _ (fun u hu => hall u (List.mem_cons_of_mem var hu))

/-- The loop raises the Undefined Variable `KeyError` at the first
placeholder whose stripped key is unbound, provided the earlier
placeholders all resolved to strings. -/
theorem svr_go_err (sv : Env) :
    ∀ (pre : List Txt) (var : Txt) (post : List Txt) (s : Txt),
      (∀ u ∈ pre, ∃ v, pyDictGet sv (.vStr (var_key u)) = some (.vStr v)) →
      pyDictGet sv (.vStr (var_key var)) = none →
      svr_go sv (pre ++ var :: post) s
        = .error (.keyError
            (txt "variable \"" ++ var_key var ++ txt "\" not defined")) := by
  intro pre
  induction pre with
  | nil =>
    intro var post s _ hnone
    simp only [List.nil_append, svr_go, hnone]
  | cons u rest ih =>
    intro var post s hall hnone
    obtain ⟨v, hv⟩ := hall u (List.mem_cons_self u rest)
    simp only [List.cons_append, svr_go, hv]
    exact ih var post _ (fun w hw => hall w (List.mem_cons_of_mem u hw)) hnone

/-- C8: substituting a string replaces every placeholder (the whole
brace-delimited match, its inner text stripped to obtain the key) with
the bound value when every key is bound to a string, and raises a
`KeyError` naming the first unbound stripped key — producing no result —
otherwise.  The `variablesArg` parameter is irrelevant, as the lookups
read `self.variables` (`sv`). -/
theorem c8_placeholder_substitution (sv : Env) (variablesArg : Option Env) (s : Txt) :
    ((∀ var ∈ findVars s, ∃ v, pyDictGet sv (.vStr (var_key var)) = some (.vStr v)) →
      string_vars_replace sv variablesArg s = .ok (substAll sv (findVars s) s))
    ∧ (∀ pre var post, findVars s = pre ++ var :: post →
        (∀ u ∈ pre, ∃ v, pyDictGet sv (.vStr (var_key u)) = some (.vStr v)) →
        pyDictGet sv (.vStr (var_key var)) = none →
        string_vars_replace sv variablesArg s
          = .error (.keyError
              (txt "variable \"" ++ var_key var ++ txt "\" not defined"))) := by
  constructor
  · intro hall
    simpa only [string_vars_replace] using svr_go_ok sv (findVars s) s hall
  · intro pre var post hsplit hpre hnone
    simp only [string_vars_replace]
    rw [hsplit]
    exact svr_go_err sv pre var post s hpre hnone

/-- Witness for C8: `hello \x7bname\x7d` with `name = world` yields
`hello world`, and the same string with an empty environment raises the
Undefined Variable `KeyError` naming `name`. -/
theorem c8_placeholder_substitution_witness :
    string_vars_replace [(.vStr (txt "name"), .vStr (txt "world"))] none
        (txt "hello " ++ lbraceC :: (txt "name" ++ [rbraceC]))
      = .ok (txt "hello world")
    ∧ string_vars_replace [] none (txt "hello " ++ lbraceC :: (txt "name" ++ [rbraceC]))
      = .error (.keyError (txt "variable \"name\" not defined")) := by
  constructor
  · exact
      (c8_placeholder_substitution [(.vStr (txt "name"), .vStr (txt "world"))] none
          (txt "hello " ++ lbraceC :: (txt "name" ++ [rbraceC]))).1
        (by
          intro var hvar
          rw [show findVars (txt "hello " ++ lbraceC :: (txt "name" ++ [rbraceC]))
                = [lbraceC :: (txt "name" ++ [rbraceC])] from rfl] at hvar
          simp only [List.mem_singleton] at hvar
          subst hvar
          exact ⟨txt "world", rfl⟩)
  · exact
      (c8_placeholder_substitution [] none
          (txt "hello " ++ lbraceC :: (txt "name" ++ [rbraceC]))).2
        [] (lbraceC :: (txt "name" ++ [rbraceC])) [] rfl
        (by intro u hu; exact absurd hu (List.not_mem_nil u)) rfl

/-- Entries whose key is present in the (dict) actual and whose recursive
comparison succeeds are skipped by the key loop. -/
theorem compare_entries_skip (ad : List (Val × Val)) (path : Txt) :
    ∀ (pre rest2 : List (Val × Val)),
      (∀ p ∈ pre, ∃ av, pyDictGet ad p.1 = some av
        ∧ compare_recursive p.2 av (path ++ '.' :: pyStr p.1) = .ok ()) →
      compare_entries (pre ++ rest2) (.vDict ad) path
        = compare_entries rest2 (.vDict ad) path := by
  intro pre
  induction pre with
  | nil => intro rest2 _; rfl
  | cons p rest ih =>
    intro rest2 hall
    obtain ⟨av, hget, hcmp⟩ := hall p (List.mem_cons_self p rest)
    obtain ⟨k, ev⟩ := p
    simp only [List.cons_append, compare_entries, pyGetItem, hget, hcmp]
    exact ih rest2 (fun q hq => hall q (List.mem_cons_of_mem _ hq))

/-- C6: comparing a mapping `expected` against a mapping `actual`
requires only the keys of `expected` (extra keys of `actual` are
unconstrained), recurses under the extended path `path.key` in key
order, reports the first key missing from `actual` as a
`ComparisonException` naming that path, propagates the first failing
recursive comparison unchanged, and compares a non-mapping `expected`
against the actual value by string-form equality of the two sides. -/
theorem c6_compare_semantics :
    (∀ (e ad : List (Val × Val)) (path : Txt),
      (∀ p ∈ e, ∃ av, pyDictGet ad p.1 = some av
        ∧ compare_recursive p.2 av (path ++ '.' :: pyStr p.1) = .ok ()) →
      compare_recursive (.vDict e) (.vDict ad) path = .ok ())
    ∧ (∀ (pre : List (Val × Val)) (k ev : Val) (post ad : List (Val × Val)) (path : Txt),
      (∀ p ∈ pre, ∃ av, pyDictGet ad p.1 = some av
        ∧ compare_recursive p.2 av (path ++ '.' :: pyStr p.1) = .ok ()) →
      pyDictGet ad k = none →
      compare_recursive (.vDict (pre ++ (k, ev) :: post)) (.vDict ad) path
        = .error (.comparisonException
            (txt "Value " ++ path ++ '.' :: pyStr k ++ txt " not existant")))
    ∧ (∀ (pre : List (Val × Val)) (k ev : Val) (post ad : List (Val × Val))
         (path : Txt) (av : Val) (er : PyErr),
      (∀ p ∈ pre, ∃ av2, pyDictGet ad p.1 = some av2
        ∧ compare_recursive p.2 av2 (path ++ '.' :: pyStr p.1) = .ok ()) →
      pyDictGet ad k = some av →
      compare_recursive ev av (path ++ '.' :: pyStr k) = .error er →
      (∀ m, er ≠ .keyError m) →
      compare_recursive (.vDict (pre ++ (k, ev) :: post)) (.vDict ad) path = .error er)
    ∧ (∀ (expected actual : Val) (path : Txt), (∀ d, expected ≠ Val.vDict d) →
        (pyStr expected = pyStr actual →
          compare_recursive expected actual path = .ok ())
        ∧ (pyStr expected ≠ pyStr actual →
          compare_recursive expected actual path
            = .error (.comparisonException
                (txt "Unfulfiled comparison at " ++ path ++ txt " (expected: "
                  ++ pyStr expected ++ txt ", actual: " ++ pyStr actual ++ txt ")")))) := by
  refine ⟨?_, ?_, ?_, ?_⟩
  · intro e ad path hall
    show compare_entries e (.vDict ad) path = .ok ()
    have h := compare_entries_skip ad path e [] hall
    simpa using h
  · intro pre k ev post ad path hpre hnone
    show compare_entries (pre ++ (k, ev) :: post) (.vDict ad) path = _
    rw [compare_entries_skip ad path pre ((k, ev) :: post) hpre]
    simp only [compare_entries, pyGetItem, hnone]
  · intro pre k ev post ad path av er hpre hget hcmp hker
    show compare_entries (pre ++ (k, ev) :: post) (.vDict ad) path = _
    rw [compare_entries_skip ad path pre ((k, ev) :: post) hpre]
    cases er with
    | keyError m => exact absurd rfl (hker m)
    | typeError m => simp only [compare_entries, pyGetItem, hget, hcmp]
    | indexError m => simp only [compare_entries, pyGetItem, hget, hcmp]
    | attributeError m => simp only [compare_entries, pyGetItem, hget, hcmp]
    | runtimeError m => simp only [compare_entries, pyGetItem, hget, hcmp]
    | comparisonException m => simp only [compare_entries, pyGetItem, hget, hcmp]
    | nameError m => simp only [compare_entries, pyGetItem, hget, hcmp]
    | transportError m => simp only [compare_entries, pyGetItem, hget, hcmp]
  · intro expected actual path hnd
    constructor
    · intro heq
      cases expected with
      | vDict d => exact absurd rfl (hnd d)
      | vNone => simp [compare_recursive, heq]
      | vBool b => simp [compare_recursive, heq]
      | vInt n => simp [compare_recursive, heq]
      | vStr s => simp [compare_recursive, heq]
      | vList l => simp [compare_recursive, heq]
      | vErrObj m => simp [compare_recursive, heq]
    · intro hne
      cases expected with
      | vDict d => exact absurd rfl (hnd d)
      | vNone => simp [compare_recursive, hne]
      | vBool b => simp [compare_recursive, hne]
      | vInt n => simp [compare_recursive, hne]
      | vStr s => simp [compare_recursive, hne]
      | vList l => simp [compare_recursive, hne]
      | vErrObj m => simp [compare_recursive, hne]

/-- Witness for C6 at concrete structures: `\x7bhttp_code: 200, a: 1\x7d`
against `\x7bhttp_code: "200", text: ok\x7d` reports `expect.a` as not
existent (the earlier key passes by string-form equality `200` vs
`"200"`, and the extra actual key `text` is ignored), and the scalar
comparison of `200` against `"200"` succeeds. -/
theorem c6_compare_semantics_witness :
    compare_recursive
        (.vDict [(.vStr (txt "http_code"), .vInt 200), (.vStr (txt "a"), .vInt 1)])
        (.vDict [(.vStr (txt "http_code"), .vStr (txt "200")),
                 (.vStr (txt "text"), .vStr (txt "ok"))])
        (txt "expect")
      = .error (.comparisonException (txt "Value expect.a not existant"))
    ∧ compare_recursive (.vInt 200) (.vStr (txt "200")) (txt "expect.http_code")
      = .ok () := by
  constructor
  · exact
      c6_compare_semantics.2.1 [(.vStr (txt "http_code"), .vInt 200)]
        (.vStr (txt "a")) (.vInt 1) []
        [(.vStr (txt "http_code"), .vStr (txt "200")),
         (.vStr (txt "text"), .vStr (txt "ok"))] (txt "expect")
        (by
          intro p hp
          simp only [List.mem_singleton] at hp
          subst hp
          exact ⟨.vStr (txt "200"), rfl, rfl⟩)
        rfl
  · exact
      (c6_compare_semantics.2.2.2 (.vInt 200) (.vStr (txt "200"))
          (txt "expect.http_code") (fun d h => Val.noConfusion h)).1 (by decide)

/-- C9 scenario: a test with a name and no `request` field. -/
def c9_test : Val := .vDict [(.vStr (txt "name"), .vStr (txt "nine"))]

/-- A configuration holding only the C9 test. -/
def c9_cfg : Config := ⟨[], [c9_test]⟩

/-- A transport that would fail loudly if it were ever consulted. -/
def c9_tp : Transport := fun _ _ _ _ => .error (.transportError (txt "unreachable"))

/-- A second, observably different transport, to witness that the
outcome of a request-less test does not depend on the transport. -/
def c9_tp2 : Transport := fun _ _ _ _ => .ok ⟨200, txt "", none⟩

/-- C9 counterexample: the claim says a test with no `request` field "is
reported as passing (its pass label is printed)".  Running such a test
prints only the `running test` line and returns from line 156 before any
label: no `[SUCCESS]` line appears in the output. -/
theorem c9_no_pass_label_is_printed :
    (run_test c9_cfg c9_tp ⟨[]⟩ c9_test (txt "nine")).out
      = [.running (txt "nine")]
    ∧ ∀ t, OutLine.labelOk t ∉ (run_test c9_cfg c9_tp ⟨[]⟩ c9_test (txt "nine")).out := by
  refine ⟨rfl, ?_⟩
  intro t h
  rw [show (run_test c9_cfg c9_tp ⟨[]⟩ c9_test (txt "nine")).out
        = [.running (txt "nine")] from rfl] at h
  simp at h

/-- C9 as amended: a test whose (dict) definition lacks a `request`
field (or sets it to `None`) performs no HTTP call (the result is the
same for every transport), runs only its `before` block, skips the
comparison and the `after` block, terminates without error — but prints
no pass label, only the `running test` line. -/
theorem c9_no_request_short_circuits (cfg : Config) (tp tp2 : Transport)
    (st st1 : RunSt) (d : List (Val × Val)) (nm : Txt) (bc : Option Val)
    (hreq : pyDictGet d (.vStr (txt "request")) = none
      ∨ pyDictGet d (.vStr (txt "request")) = some .vNone)
    (hb : dict_get_replaced st.vars (.vDict d) (txt "before") [] none = .ok bc)
    (hrc : run_commands st bc = (st1, none)) :
    run_test cfg tp st (.vDict d) nm = ⟨[.running nm], st1, none⟩
    ∧ run_test cfg tp2 st (.vDict d) nm = run_test cfg tp st (.vDict d) nm := by
  have key : ∀ tpp : Transport,
      run_test cfg tpp st (.vDict d) nm = ⟨[.running nm], st1, none⟩ := by
    intro tpp
    simp only [run_test, hb, hrc]
    rcases hreq with h | h
    · simp only [dict_get_replaced, h]
    · simp only [dict_get_replaced, h]
  exact ⟨key tp, (key tp2).trans (key tp).symm⟩

/-- Witness for C9's amended theorem at the concrete request-less test,
with two different transports. -/
theorem c9_no_request_short_circuits_witness :
    run_test c9_cfg c9_tp ⟨[]⟩ c9_test (txt "nine")
      = ⟨[.running (txt "nine")], ⟨[]⟩, none⟩
    ∧ run_test c9_cfg c9_tp2 ⟨[]⟩ c9_test (txt "nine")
      = run_test c9_cfg c9_tp ⟨[]⟩ c9_test (txt "nine") :=
  c9_no_request_short_circuits c9_cfg c9_tp c9_tp2 ⟨[]⟩ ⟨[]⟩
    [(.vStr (txt "name"), .vStr (txt "nine"))] (txt "nine") none
    (Or.inl rfl) rfl rfl

/-- A prefix of the suite loop that completes without an uncaught
exception contributes its output and final state, and the loop continues
into the remaining tests (with the last computed name carried for the
suite-level handler). -/
theorem run_tests_from_append (cfg : Config) (tp : Transport) :
    ∀ (pre : List Val) (i : Nat) (st : RunSt) (ln : Option Txt)
      (out1 : List OutLine) (st1 : RunSt),
      run_tests_from cfg tp pre i st ln = (out1, st1, none) →
      ∀ l2 : List Val, ∃ ln2 : Option Txt,
        run_tests_from cfg tp (pre ++ l2) i st ln
          = (out1 ++ (run_tests_from cfg tp l2 (i + pre.length) st1 ln2).1,
             (run_tests_from cfg tp l2 (i + pre.length) st1 ln2).2.1,
             (run_tests_from cfg tp l2 (i + pre.length) st1 ln2).2.2) := by
  intro pre
  induction pre with
  | nil =>
    intro i st ln out1 st1 h l2
    simp only [run_tests_from, Prod.mk.injEq] at h
    obtain ⟨rfl, rfl, -⟩ := h
    exact ⟨ln, by simp⟩
  | cons t pre ih =>
    intro i st ln out1 st1 h l2
    rw [show (t :: pre) ++ l2 = t :: (pre ++ l2) from rfl]
    cases hn : name_step st t i with
    | error e =>
      simp only [run_tests_from, hn, Prod.mk.injEq] at h
      exact absurd h.2.2 (by simp)
    | ok nm =>
      simp only [run_tests_from, hn] at h
      cases herr : (run_test cfg tp st t nm).err with
      | some e =>
        simp only [herr, Prod.mk.injEq] at h
        exact absurd h.2.2 (by simp)
      | none =>
        simp only [herr] at h
        rcases hrec : run_tests_from cfg tp pre (i + 1) (run_test cfg tp st t nm).st
            (some nm) with ⟨out2, st2, res⟩
        simp only [hrec, Prod.mk.injEq] at h
        obtain ⟨h1, h2, h3⟩ := h
        subst h1
        subst h2
        subst h3
        obtain ⟨ln2, hcont⟩ := ih (i + 1) (run_test cfg tp st t nm).st (some nm)
          out2 st2 hrec l2
        refine ⟨ln2, ?_⟩
        simp only [run_tests_from, hn, herr, hcont]
        have hlen : i + 1 + pre.length = i + (t :: pre).length := by
          simp
          omega
        rw [hlen]
        simp

/-- C5: the per-test handler (lines 171-176) recovers exactly
`ComparisonException` locally (printing the mismatch and the failure
label, with no escaping exception) and lets every other exception
escape; the suite loop (lines 180-187) runs the next test whenever a
test's `run_test` raised nothing, while an escaping exception stops the
loop at that test with the raised error, and at the whole-suite level
produces exactly the prefix output, the failing test's output, and one
closing diagnostic naming that test — nothing from any later test. -/
theorem c5_propagation_policy :
    (∀ (n m : Txt), reportCompare n (.error (.comparisonException m))
        = ([.labelFail m, .labelFail (txt "Test " ++ n)], none))
    ∧ (∀ (n : Txt) (e : PyErr), (∀ m, e ≠ .comparisonException m) →
        reportCompare n (.error e) = ([], some e))
    ∧ (∀ (cfg : Config) (tp : Transport) (t : Val) (rest : List Val) (i : Nat)
         (st : RunSt) (ln : Option Txt) (nm : Txt),
        name_step st t i = .ok nm →
        ((run_test cfg tp st t nm).err = none →
          run_tests_from cfg tp (t :: rest) i st ln
            = ((run_test cfg tp st t nm).out
                ++ (run_tests_from cfg tp rest (i + 1)
                      (run_test cfg tp st t nm).st (some nm)).1,
               (run_tests_from cfg tp rest (i + 1)
                  (run_test cfg tp st t nm).st (some nm)).2.1,
               (run_tests_from cfg tp rest (i + 1)
                  (run_test cfg tp st t nm).st (some nm)).2.2))
        ∧ (∀ e, (run_test cfg tp st t nm).err = some e →
            run_tests_from cfg tp (t :: rest) i st ln
              = ((run_test cfg tp st t nm).out,
                 (run_test cfg tp st t nm).st, some (some nm, e))))
    ∧ (∀ (reqs pre : List Val) (t : Val) (rest : List Val) (tp : Transport)
         (st : RunSt) (outPre : List OutLine) (st1 : RunSt) (nm : Txt) (e : PyErr),
        run_tests_from ⟨reqs, pre ++ t :: rest⟩ tp pre 0 st none
            = (outPre, st1, none) →
        name_step st1 t pre.length = .ok nm →
        (run_test ⟨reqs, pre ++ t :: rest⟩ tp st1 t nm).err = some e →
        run_all_tests ⟨reqs, pre ++ t :: rest⟩ tp st
          = (outPre ++ (run_test ⟨reqs, pre ++ t :: rest⟩ tp st1 t nm).out
              ++ [suite_diag nm e],
             (run_test ⟨reqs, pre ++ t :: rest⟩ tp st1 t nm).st, none)) := by
  have hstep : ∀ (cfg : Config) (tp : Transport) (t : Val) (rest : List Val)
      (i : Nat) (st : RunSt) (ln : Option Txt) (nm : Txt),
      name_step st t i = .ok nm →
      ((run_test cfg tp st t nm).err = none →
        run_tests_from cfg tp (t :: rest) i st ln
          = ((run_test cfg tp st t nm).out
              ++ (run_tests_from cfg tp rest (i + 1)
                    (run_test cfg tp st t nm).st (some nm)).1,
             (run_tests_from cfg tp rest (i + 1)
                (run_test cfg tp st t nm).st (some nm)).2.1,
             (run_tests_from cfg tp rest (i + 1)
                (run_test cfg tp st t nm).st (some nm)).2.2))
      ∧ (∀ e, (run_test cfg tp st t nm).err = some e →
          run_tests_from cfg tp (t :: rest) i st ln
            = ((run_test cfg tp st t nm).out,
               (run_test cfg tp st t nm).st, some (some nm, e))) := by
    intro cfg tp t rest i st ln nm hn
    constructor
    · intro herr
      rcases hrec : run_tests_from cfg tp rest (i + 1) (run_test cfg tp st t nm).st
          (some nm) with ⟨out2, st2, res⟩
      simp only [run_tests_from, hn, herr, hrec]
    · intro e herr
      simp only [run_tests_from, hn, herr]
  refine ⟨fun n m => rfl, ?_, hstep, ?_⟩
  · intro n e hne
    cases e with
    | keyError m => rfl
    | typeError m => rfl
    | indexError m => rfl
    | attributeError m => rfl
    | runtimeError m => rfl
    | comparisonException m => exact absurd rfl (hne m)
    | nameError m => rfl
    | transportError m => rfl
  · intro reqs pre t rest tp st outPre st1 nm e hpre hn herr
    obtain ⟨ln2, happ⟩ := run_tests_from_append ⟨reqs, pre ++ t :: rest⟩ tp pre 0 st
      none outPre st1 hpre (t :: rest)
    have hstop := (hstep ⟨reqs, pre ++ t :: rest⟩ tp t rest (0 + pre.length) st1 ln2
      nm (by simpa using hn)).2 e herr
    simp only [run_all_tests, happ, hstop]

/-- C5 scenario, test 1: its request reaches `u1`, whose 404 response
fails the defaulted `http_code: 200` expectation — a mismatch. -/
def c5_t1 : Val :=
  .vDict [(.vStr (txt "name"), .vStr (txt "one")),
          (.vStr (txt "request"), .vDict [(.vStr (txt "url"), .vStr (txt "u1"))])]

/-- C5 scenario, test 2: its request reaches `u2`, where the transport
raises. -/
def c5_t2 : Val :=
  .vDict [(.vStr (txt "name"), .vStr (txt "two")),
          (.vStr (txt "request"), .vDict [(.vStr (txt "url"), .vStr (txt "u2"))])]

/-- C5 scenario, test 3: never reached. -/
def c5_t3 : Val := .vDict [(.vStr (txt "name"), .vStr (txt "three"))]

/-- C5 transport: `u1` answers 404, anything else raises a connection
error. -/
def c5_tp : Transport := fun _ url _ _ =>
  if valBeq url (.vStr (txt "u1")) then .ok ⟨404, txt "no", none⟩
  else .error (.transportError (txt "connection refused"))

/-- The C5 configuration, shaped as prefix `[one]`, failing test `two`,
and remainder `[three]`. -/
def c5_cfg : Config := ⟨[], [c5_t1] ++ c5_t2 :: [c5_t3]⟩

/-- Witness for C5: in the concrete three-test run, test one's mismatch
is recovered (its two failure labels appear and the loop carries on),
test two's transport error escapes, and the whole run prints test one's
lines, test two's `running` line, and the single diagnostic naming test
two — nothing of test three. -/
theorem c5_propagation_policy_witness :
    run_all_tests c5_cfg c5_tp ⟨[]⟩
      = ([.running (txt "one"),
          .labelFail
            (txt "Unfulfiled comparison at expect.http_code (expected: 200, actual: 404)"),
          .labelFail (txt "Test one"),
          .running (txt "two"),
          .labelFail (txt "Error running test \"two\": connection refused")],
         ⟨[]⟩, none)
    ∧ reportCompare (txt "one") (.error (.comparisonException (txt "boom")))
      = ([.labelFail (txt "boom"), .labelFail (txt "Test one")], none)
    ∧ reportCompare (txt "two") (.error (.transportError (txt "connection refused")))
      = ([], some (.transportError (txt "connection refused"))) := by
  refine ⟨?_, c5_propagation_policy.1 (txt "one") (txt "boom"),
    c5_propagation_policy.2.1 (txt "two") (.transportError (txt "connection refused"))
      (fun m h => by cases h)⟩
  exact c5_propagation_policy.2.2.2 [] [c5_t1] c5_t2 [c5_t3] c5_tp ⟨[]⟩
    [.running (txt "one"),
     .labelFail
       (txt "Unfulfiled comparison at expect.http_code (expected: 200, actual: 404)"),
     .labelFail (txt "Test one")]
    ⟨[]⟩ (txt "two") (.transportError (txt "connection refused")) rfl rfl rfl

/-! ## Object-identity model of `vars_replace` for the frame claim

The pure `vars_replace` above cannot express that the substitutor leaves
its argument unmutated, because Python mutation is a statement about
object identity.  This section re-embeds `vars_replace` (lines 48-58)
over an explicit heap: objects live at addresses, containers hold
references, allocation appends to the heap, and the only in-place update
the code performs — `subject[key] = ...` on the copy made by
`subject.copy()` (line 50) — targets the freshly allocated address. -/

/-- An object address. -/
abbrev Ref := Nat

/-- A Python object on the heap.  Dict keys are strings (the
configuration documents the program manipulates key their mappings by
strings); container fields hold references. -/
inductive HObj where
  | hDict : List (Txt × Ref) → HObj
  | hList : List Ref → HObj
  | hStr : Txt → HObj
  | hInt : Int → HObj
  | hBool : Bool → HObj
  | hNone : HObj
deriving DecidableEq, Repr

/-- The heap: the object at address `r` is the `r`-th entry; allocation
appends. -/
abbrev Heap := List HObj

/-- The in-place update `copy[key] = ref` on the dict object at `c`:
the value of the existing key is replaced, keeping the key order (the
loop on lines 51-52 assigns only keys the copy already has). -/
def heapSetDictKey (h : Heap) (c : Ref) (k : Txt) (r2 : Ref) : Heap :=
  match h[c]? with
  | some (.hDict entries) =>
    h.set c (.hDict (entries.map (fun p => if p.1 = k then (p.1, r2) else p)))
  | _ => h

/-- The Python `str()` of a heap scalar, as line 56 stringifies it. -/
def hscalarStr : HObj → Txt
  | .hStr s => s
  | .hInt n => intToTxt n
  | .hBool true => txt "True"
  | .hBool false => txt "False"
  | _ => []

mutual

/-- Embedding of `vars_replace` over the heap.  A dict is shallow-copied to a fresh
address and the copy's values are reassigned in place, in key order; a
list is rebuilt elementwise into a fresh object; a scalar is stringified
and substituted into a fresh string object; `None` is returned as is.
`fuel` bounds the recursion depth (Python's recursion limit); every
recursive call decrements it. -/
def vars_replace_heap (sv : Env) : Nat → Heap → Ref → Except PyErr (Heap × Ref)
  | 0, _, _ => .error (.runtimeError (txt "maximum recursion depth exceeded"))
  | fuel + 1, h, r =>
    match h[r]? with
    | none => .error (.runtimeError (txt "dangling reference"))
    | some (.hDict entries) =>
      match vr_heap_entries sv fuel entries h.length (h ++ [.hDict entries]) with
      | .error e => .error e
      | .ok h2 => .ok (h2, h.length)
    | some (.hList elems) =>
      match vr_heap_list sv fuel elems h with
      | .error e => .error e
      | .ok (h2, rs) => .ok (h2 ++ [.hList rs], h2.length)
    | some (.hStr s) =>
      match string_vars_replace sv none (hscalarStr (.hStr s)) with
      | .error e => .error e
      | .ok s2 => .ok (h ++ [.hStr s2], h.length)
    | some (.hInt n) =>
      match string_vars_replace sv none (hscalarStr (.hInt n)) with
      | .error e => .error e
      | .ok s2 => .ok (h ++ [.hStr s2], h.length)
    | some (.hBool b) =>
      match string_vars_replace sv none (hscalarStr (.hBool b)) with
      | .error e => .error e
      | .ok s2 => .ok (h ++ [.hStr s2], h.length)
    | some .hNone => .ok (h, r)

/-- The per-key loop of the dict case: substitute each original value
and assign the result into the copy at `c`. -/
def vr_heap_entries (sv : Env) :
    Nat → List (Txt × Ref) → Ref → Heap → Except PyErr Heap
  | 0, _, _, _ => .error (.runtimeError (txt "maximum recursion depth exceeded"))
  | _ + 1, [], _, h => .ok h
  | fuel + 1, (k, vr) :: rest, c, h =>
    match vars_replace_heap sv fuel h vr with
    | .error e => .error e
    | .ok (h2, vr2) => vr_heap_entries sv fuel rest c (heapSetDictKey h2 c k vr2)

/-- The elementwise loop of the list case. -/
def vr_heap_list (sv : Env) :
    Nat → List Ref → Heap → Except PyErr (Heap × List Ref)
  | 0, _, _ => .error (.runtimeError (txt "maximum recursion depth exceeded"))
  | _ + 1, [], h => .ok (h, [])
  | fuel + 1, r :: rest, h =>
    match vars_replace_heap sv fuel h r with
    | .error e => .error e
    | .ok (h2, r2) =>
      match vr_heap_list sv fuel rest h2 with
      | .error e => .error e
      | .ok (h3, rs) => .ok (h3, r2 :: rs)

end

/-- The in-place update leaves the heap's length unchanged. -/
theorem heapSetDictKey_length (h : Heap) (c : Ref) (k : Txt) (r2 : Ref) :
    (heapSetDictKey h c k r2).length = h.length := by
  unfold heapSetDictKey
  cases hg : h[c]? with
  | none => rfl
  | some o =>
    cases o with
    | hDict es => simp [List.length_set]
    | hList el => rfl
    | hStr s => rfl
    | hInt n => rfl
    | hBool b => rfl
    | hNone => rfl

/-- The in-place update touches no address other than its target. -/
theorem heapSetDictKey_get_ne (h : Heap) (c : Ref) (k : Txt) (r2 : Ref) (i : Nat)
    (hne : i ≠ c) : (heapSetDictKey h c k r2)[i]? = h[i]? := by
  unfold heapSetDictKey
  cases hg : h[c]? with
  | none => rfl
  | some o =>
    cases o with
    | hDict es => exact List.getElem?_set_ne (Ne.symm hne)
    | hList el => rfl
    | hStr s => rfl
    | hInt n => rfl
    | hBool b => rfl
    | hNone => rfl

/-- Replacing values at one key leaves the key list (in order) intact. -/
theorem map_fst_setKey (k : Txt) (r2 : Ref) :
    ∀ es : List (Txt × Ref),
      (es.map (fun p => if p.1 = k then (p.1, r2) else p)).map Prod.fst
        = es.map Prod.fst
  | [] => rfl
  | p :: rest => by
    by_cases hpk : p.1 = k <;> simp [hpk, map_fst_setKey k r2 rest]

/-- The in-place update keeps the target dict's keys and their order. -/
theorem heapSetDictKey_keys (h : Heap) (c : Ref) (k : Txt) (r2 : Ref)
    (es : List (Txt × Ref)) (hc : h[c]? = some (.hDict es)) :
    ∃ es2, (heapSetDictKey h c k r2)[c]? = some (.hDict es2)
      ∧ es2.map Prod.fst = es.map Prod.fst := by
  unfold heapSetDictKey
  rw [hc]
  have hlt : c < h.length := by
    by_contra hge
    push_neg at hge
    rw [List.getElem?_eq_none hge] at hc
    cases hc
  exact ⟨es.map (fun p => if p.1 = k then (p.1, r2) else p),
    List.getElem?_set_eq_of_lt _ hlt, map_fst_setKey k r2 es⟩

/-- Master invariant of the heap substitutor, by induction on fuel: a
successful run only grows the heap (no address that existed before the
call holds a different object afterwards — except, inside the entry
loop, the fresh copy being filled in); a dict input yields a fresh dict
with the same keys in the same order; a list input yields a fresh list
of the same length. -/
theorem vr_heap_spec : ∀ fuel : Nat,
    (∀ (sv : Env) (h : Heap) (r : Ref) (h2 : Heap) (r2 : Ref),
      vars_replace_heap sv fuel h r = .ok (h2, r2) →
      h.length ≤ h2.length
      ∧ (∀ i, i < h.length → h2[i]? = h[i]?)
      ∧ (∀ es, h[r]? = some (.hDict es) → r2 = h.length
          ∧ ∃ es2, h2[r2]? = some (.hDict es2)
            ∧ es2.map Prod.fst = es.map Prod.fst)
      ∧ (∀ el, h[r]? = some (.hList el) → h.length ≤ r2
          ∧ ∃ el2, h2[r2]? = some (.hList el2) ∧ el2.length = el.length))
    ∧ (∀ (sv : Env) (entries : List (Txt × Ref)) (c : Ref) (h h2 : Heap),
      c < h.length → vr_heap_entries sv fuel entries c h = .ok h2 →
      h.length ≤ h2.length
      ∧ (∀ i, i < h.length → i ≠ c → h2[i]? = h[i]?)
      ∧ (∀ es, h[c]? = some (.hDict es) →
          ∃ es2, h2[c]? = some (.hDict es2)
            ∧ es2.map Prod.fst = es.map Prod.fst))
    ∧ (∀ (sv : Env) (elems : List Ref) (h h2 : Heap) (rs : List Ref),
      vr_heap_list sv fuel elems h = .ok (h2, rs) →
      h.length ≤ h2.length
      ∧ (∀ i, i < h.length → h2[i]? = h[i]?)
      ∧ rs.length = elems.length) := by
  intro fuel
  induction fuel with
  | zero =>
    refine ⟨?_, ?_, ?_⟩
    · intro sv h r h2 r2 hok
      simp [vars_replace_heap] at hok
    · intro sv entries c h h2 hc hok
      simp [vr_heap_entries] at hok
    · intro sv elems h h2 rs hok
      simp [vr_heap_list] at hok
  | succ fuel ih =>
    obtain ⟨ihv, ihe, ihl⟩ := ih
    refine ⟨?_, ?_, ?_⟩
    · intro sv h r h2 r2 hok
      cases hget : h[r]? with
      | none => simp [vars_replace_heap, hget] at hok
      | some o =>
        cases o with
        | hDict es =>
          simp only [vars_replace_heap, hget] at hok
          cases hent : vr_heap_entries sv fuel es h.length (h ++ [HObj.hDict es]) with
          | error e => simp [hent] at hok
          | ok h4 =>
            simp only [hent, Except.ok.injEq, Prod.mk.injEq] at hok
            obtain ⟨rfl, rfl⟩ := hok
            have hc : h.length < (h ++ [HObj.hDict es]).length := by simp
            obtain ⟨hlen, hframe, hkeys⟩ :=
              ihe sv es h.length (h ++ [HObj.hDict es]) h4 hc hent
            refine ⟨?_, ?_, ?_, ?_⟩
            · simp at hlen
              omega
            · intro i hi
              have hfr := hframe i (by simp; omega) (by omega)
              rw [hfr, List.getElem?_append_left hi]
            · intro es0 hes0
              injection hes0 with hes1
              injection hes1 with hes2
              subst hes2
              exact ⟨rfl, hkeys _ (List.getElem?_concat_length h _)⟩
            · intro el hel
              simp at hel
        | hList el =>
          simp only [vars_replace_heap, hget] at hok
          cases hlst : vr_heap_list sv fuel el h with
          | error e => simp [hlst] at hok
          | ok pr =>
            obtain ⟨h3, rs⟩ := pr
            simp only [hlst, Except.ok.injEq, Prod.mk.injEq] at hok
            obtain ⟨rfl, rfl⟩ := hok
            obtain ⟨hlen, hframe, hrs⟩ := ihl sv el h h3 rs hlst
            refine ⟨?_, ?_, ?_, ?_⟩
            · simp
              omega
            · intro i hi
              rw [List.getElem?_append_left (by omega), hframe i hi]
            · intro es0 hes0
              simp at hes0
            · intro el0 hel0
              injection hel0 with hel1
              injection hel1 with hel2
              subst hel2
              exact ⟨hlen, rs, List.getElem?_concat_length h3 _, hrs⟩
        | hStr s =>
          simp only [vars_replace_heap, hget] at hok
          cases hsub : string_vars_replace sv none (hscalarStr (HObj.hStr s)) with
          | error e => simp [hsub] at hok
          | ok s2 =>
            simp only [hsub, Except.ok.injEq, Prod.mk.injEq] at hok
            obtain ⟨rfl, rfl⟩ := hok
            refine ⟨by simp, ?_, ?_, ?_⟩
            · intro i hi
              rw [List.getElem?_append_left hi]
            · intro es0 hes0
              simp at hes0
            · intro el0 hel0
              simp at hel0
        | hInt n =>
          simp only [vars_replace_heap, hget] at hok
          cases hsub : string_vars_replace sv none (hscalarStr (HObj.hInt n)) with
          | error e => simp [hsub] at hok
          | ok s2 =>
            simp only [hsub, Except.ok.injEq, Prod.mk.injEq] at hok
            obtain ⟨rfl, rfl⟩ := hok
            refine ⟨by simp, ?_, ?_, ?_⟩
            · intro i hi
              rw [List.getElem?_append_left hi]
            · intro es0 hes0
              simp at hes0
            · intro el0 hel0
              simp at hel0
        | hBool b =>
          simp only [vars_replace_heap, hget] at hok
          cases hsub : string_vars_replace sv none (hscalarStr (HObj.hBool b)) with
          | error e => simp [hsub] at hok
          | ok s2 =>
            simp only [hsub, Except.ok.injEq, Prod.mk.injEq] at hok
            obtain ⟨rfl, rfl⟩ := hok
            refine ⟨by simp, ?_, ?_, ?_⟩
            · intro i hi
              rw [List.getElem?_append_left hi]
            · intro es0 hes0
              simp at hes0
            · intro el0 hel0
              simp at hel0
        | hNone =>
          simp only [vars_replace_heap, hget, Except.ok.injEq, Prod.mk.injEq] at hok
          obtain ⟨rfl, rfl⟩ := hok
          refine ⟨Nat.le_refl _, fun i _ => rfl, ?_, ?_⟩
          · intro es0 hes0
            simp at hes0
          · intro el0 hel0
            simp at hel0
    · intro sv entries c h h2 hc hok
      cases entries with
      | nil =>
        simp only [vr_heap_entries, Except.ok.injEq] at hok
        subst hok
        exact ⟨Nat.le_refl _, fun i _ _ => rfl, fun es hes => ⟨es, hes, rfl⟩⟩
      | cons p rest =>
        obtain ⟨k, vr⟩ := p
        simp only [vr_heap_entries] at hok
        cases hv : vars_replace_heap sv fuel h vr with
        | error e => simp [hv] at hok
        | ok pr =>
          obtain ⟨h3, vr2⟩ := pr
          simp only [hv] at hok
          obtain ⟨hlen1, hframe1, -, -⟩ := ihv sv h vr h3 vr2 hv
          have hc3 : c < (heapSetDictKey h3 c k vr2).length := by
            rw [heapSetDictKey_length]
            exact Nat.lt_of_lt_of_le hc hlen1
          obtain ⟨hlen2, hframe2, hkeys2⟩ :=
            ihe sv rest c (heapSetDictKey h3 c k vr2) h2 hc3 hok
          rw [heapSetDictKey_length] at hlen2
          refine ⟨Nat.le_trans hlen1 hlen2, ?_, ?_⟩
          · intro i hi hne
            have hi3 : i < (heapSetDictKey h3 c k vr2).length := by
              rw [heapSetDictKey_length]
              exact Nat.lt_of_lt_of_le hi hlen1
            rw [hframe2 i hi3 hne, heapSetDictKey_get_ne h3 c k vr2 i hne,
              hframe1 i hi]
          · intro es hes
            have hes3 : h3[c]? = some (.hDict es) := by
              rw [hframe1 c hc]
              exact hes
            obtain ⟨es1, hes1, hkeys1⟩ := heapSetDictKey_keys h3 c k vr2 es hes3
            obtain ⟨es2, hes2, hkeys2b⟩ := hkeys2 es1 hes1
            exact ⟨es2, hes2, hkeys2b.trans hkeys1⟩
    · intro sv elems h h2 rs hok
      cases elems with
      | nil =>
        simp only [vr_heap_list, Except.ok.injEq, Prod.mk.injEq] at hok
        obtain ⟨rfl, rfl⟩ := hok
        exact ⟨Nat.le_refl _, fun i _ => rfl, rfl⟩
      | cons r rest =>
        simp only [vr_heap_list] at hok
        cases hv : vars_replace_heap sv fuel h r with
        | error e => simp [hv] at hok
        | ok pr =>
          obtain ⟨h3, r2⟩ := pr
          simp only [hv] at hok
          cases hlst : vr_heap_list sv fuel rest h3 with
          | error e => simp [hlst] at hok
          | ok pr2 =>
            obtain ⟨h4, rs2⟩ := pr2
            simp only [hlst, Except.ok.injEq, Prod.mk.injEq] at hok
            obtain ⟨rfl, rfl⟩ := hok
            obtain ⟨hlen1, hframe1, -, -⟩ := ihv sv h r h3 r2 hv
            obtain ⟨hlen2, hframe2, hrs2⟩ := ihl sv rest h3 h4 rs2 hlst
            refine ⟨by omega, ?_, by simp [hrs2]⟩
            intro i hi
            rw [hframe2 i (by omega), hframe1 i hi]

/-- C10: a successful substitution never mutates any pre-existing
object — every address that existed before the call holds the same
object afterwards, the input included — and for a mapping or sequence
input the returned reference is a freshly allocated object (its address
is outside the original heap): a new mapping with the same keys in the
same order, or a new sequence of the same length. -/
theorem c10_vars_replace_frame (sv : Env) (fuel : Nat) (h h2 : Heap) (r r2 : Ref)
    (hok : vars_replace_heap sv fuel h r = .ok (h2, r2)) :
    (∀ i, i < h.length → h2[i]? = h[i]?)
    ∧ (∀ es, h[r]? = some (.hDict es) → h.length ≤ r2
        ∧ ∃ es2, h2[r2]? = some (.hDict es2)
          ∧ es2.map Prod.fst = es.map Prod.fst)
    ∧ (∀ el, h[r]? = some (.hList el) → h.length ≤ r2
        ∧ ∃ el2, h2[r2]? = some (.hList el2) ∧ el2.length = el.length) := by
  obtain ⟨-, hframe, hdict, hlist⟩ := (vr_heap_spec fuel).1 sv h r h2 r2 hok
  refine ⟨hframe, ?_, hlist⟩
  intro es hes
  obtain ⟨hr2, hex⟩ := hdict es hes
  exact ⟨Nat.le_of_eq hr2.symm, hex⟩

/-- C10 witness heap: a one-key dict at address 0 whose value is the
string at address 1. -/
def c10_heap : Heap := [HObj.hDict [(txt "a", 1)], HObj.hStr (txt "x")]

/-- The heap after substituting the dict at address 0 of `c10_heap`: the
two original objects are untouched, the copy lives at the fresh address
2 with the same key, and its value is the fresh substituted string at
address 3. -/
def c10_res : Heap :=
  [HObj.hDict [(txt "a", 1)], HObj.hStr (txt "x"),
   HObj.hDict [(txt "a", 3)], HObj.hStr (txt "x")]

/-- Witness for C10 at the concrete heap: the call succeeds, returning
the fresh address 2, and the theorem's conclusions hold there. -/
theorem c10_vars_replace_frame_witness :
    vars_replace_heap [] 5 c10_heap 0 = .ok (c10_res, 2)
    ∧ ((∀ i, i < c10_heap.length → c10_res[i]? = c10_heap[i]?)
      ∧ (∀ es, c10_heap[0]? = some (.hDict es) → c10_heap.length ≤ 2
          ∧ ∃ es2, c10_res[2]? = some (.hDict es2)
            ∧ es2.map Prod.fst = es.map Prod.fst)
      ∧ (∀ el, c10_heap[0]? = some (.hList el) → c10_heap.length ≤ 2
          ∧ ∃ el2, c10_res[2]? = some (.hList el2) ∧ el2.length = el.length)) :=
  ⟨rfl, c10_vars_replace_frame [] 5 c10_heap c10_res 0 2 rfl⟩
